import Mathlib

/-
  A verification development for the TypeScript e-learning sandbox
  (src/src/lib/sandbox.ts): a shallow embedding, over `List Char`
  strings, of the section parser `parseCodeIntoSections`, the
  type-erasure transform `cleanCodeForExecution`, and the execution
  engine `executeCode`, together with theorems settling the
  specification claims about them.

  Strings are modelled as `List Char`.  Each JavaScript regular
  expression replacement of the source is embedded as an executable
  scanner reproducing the backtracking behaviour of the pattern
  (greedy and lazy quantifiers, ordered alternation, global scan
  resuming at the end of each match).  The dynamic invocation of the
  compiled user code (`new Function(cleanCode)()`) cannot be embedded
  and is modelled by a `RunEffect` parameter: the console calls the
  executed fragment performs, an optional thrown-error message, and
  the mutation it applies to the global console record.
-/

/-- JS strings, modelled as lists of characters. -/
abbrev Str := List Char

/-- Convert a Lean string literal to the `Str` model. -/
def str (s : String) : Str := s.data

/-- JS `\s` / `String.prototype.trim` whitespace (ASCII part plus NBSP). -/
def jsIsWs (c : Char) : Bool :=
  c == ' ' || c == '\t' || c == '\n' || c == '\r' || c == '\x0B' || c == '\x0C' || c == ' '

/-- JS `\w`: ASCII letters, digits and underscore. -/
def isWordChar (c : Char) : Bool :=
  c.isAlpha || c.isDigit || c == '_'

/-- Length of the maximal prefix whose characters satisfy `p`. -/
def countWhile (p : Char → Bool) : Str → Nat
  | [] => 0
  | c :: cs => if p c then countWhile p cs + 1 else 0

/-- Match a literal at the head of `s`, returning the rest. -/
def dropLit (lit : Str) (s : Str) : Option Str :=
  if lit.isPrefixOf s then some (s.drop lit.length) else none

/-- JS `String.prototype.trim`. -/
def jsTrim (s : Str) : Str :=
  ((s.dropWhile jsIsWs).reverse.dropWhile jsIsWs).reverse

/-- JS `String.prototype.includes`. -/
def jsIncludes (s sub : Str) : Bool :=
  (List.range (s.length + 1)).any (fun i => sub.isPrefixOf (s.drop i))

/-- JS `String.prototype.split(',')`. -/
def splitOnComma : Str → List Str
  | [] => [[]]
  | ',' :: rest => [] :: splitOnComma rest
  | c :: rest =>
    match splitOnComma rest with
    | [] => [[c]]
    | p :: ps => (c :: p) :: ps

/-- `parseInt(digits, 10)` on a non-empty all-digit string. -/
def parseDigits (ds : Str) : Nat :=
  ds.foldl (fun a c => a * 10 + (c.toNat - 48)) 0

/-- JS `String.prototype.substring` (clamps both indices to the length
and swaps them when given in descending order). -/
def jsSubstring (s : Str) (a b : Nat) : Str :=
  let len := s.length
  let lo := min (min a len) (min b len)
  let hi := max (min a len) (min b len)
  (s.take hi).drop lo

/-- JS `String(n)` for the integral numbers used by the lessons. -/
def intToStr (i : Int) : Str :=
  if i < 0 then '-' :: Nat.toDigits 10 i.natAbs else Nat.toDigits 10 i.natAbs

/- ===================================================================
   Section parser (sandbox.ts lines 67-124)

   Header pattern (line 71):
     //\s*={60,}\s*\n//\s*SECTION\s+(\d+):\s*(.+?)\s*\n//\s*={60,}
   =================================================================== -/

/-- One record of the `matches` array built at sandbox.ts lines 78-87:
declared section number, trimmed title, match start offset `index`,
and the offset just past the header, `endIndex`. -/
structure HeaderMatch where
  num : Nat
  title : Str
  index : Nat
  endIndex : Nat
deriving DecidableEq

/-- A parsed section (sandbox.ts `CodeSection`). -/
structure CodeSection where
  title : Str
  content : Str
  sectionNumber : Nat
deriving DecidableEq

/-- Candidates for `\s*\n` starting at `s`: the suffixes obtained by
consuming a whitespace prefix that ends with a newline, longest
consumed first (greedy `\s*`, then backtracking into the literal
`\n`). -/
def wsNlCandidates (s : Str) : List Str :=
  let w := countWhile jsIsWs s
  (((List.range w).filter (fun i => s.get? i == some '\n')).reverse).map
    (fun i => s.drop (i + 1))

/-- Candidates for a greedy `\s*` whose continuation overlaps with
whitespace: all suffixes obtained by consuming `k, k-1, ..., 0`
whitespace characters. -/
def wsStarCandidates (s : Str) : List Str :=
  let w := countWhile jsIsWs s
  ((List.range (w + 1)).reverse).map (fun i => s.drop i)

/-- Candidates for the lazy `(.+?)` title capture: non-empty prefixes
of non-newline characters, shortest first, with the corresponding
rest. -/
def lazyTitleCandidates (s : Str) : List (Str × Str) :=
  let m := countWhile (fun c => c != '\n') s
  (List.range m).map (fun k => (s.take (k + 1), s.drop (k + 1)))

/-- Try to match the section-header pattern at the start of `s0`,
returning the digit capture, the raw title capture and the number of
characters consumed.  Quantifiers followed by a disjoint character
class are consumed possessively (exact for this pattern); the three
genuinely ambiguous quantifiers (`\s*\n` twice, `\s*` before the lazy
title) are resolved by ordered backtracking as JS does. -/
def matchHeaderAt (s0 : Str) : Option (Str × Str × Nat) :=
  match dropLit (str "//") s0 with
  | none => none
  | some s1 =>
    let s2 := s1.drop (countWhile jsIsWs s1)
    let eq1 := countWhile (fun c => c == '=') s2
    if eq1 < 60 then none else
    let s3 := s2.drop eq1
    (wsNlCandidates s3).findSome? (fun s4 =>
      match dropLit (str "//") s4 with
      | none => none
      | some s5 =>
        let s6 := s5.drop (countWhile jsIsWs s5)
        match dropLit (str "SECTION") s6 with
        | none => none
        | some s7 =>
          let w := countWhile jsIsWs s7
          if w == 0 then none else
          let s8 := s7.drop w
          let d := countWhile Char.isDigit s8
          if d == 0 then none else
          let digits := s8.take d
          let s9 := s8.drop d
          match s9 with
          | ':' :: s10 =>
            (wsStarCandidates s10).findSome? (fun s11 =>
              (lazyTitleCandidates s11).findSome? (fun tc =>
                (wsNlCandidates tc.2).findSome? (fun s13 =>
                  match dropLit (str "//") s13 with
                  | none => none
                  | some s14 =>
                    let s15 := s14.drop (countWhile jsIsWs s14)
                    let eq2 := countWhile (fun c => c == '=') s15
                    if eq2 < 60 then none else
                    let s16 := s15.drop eq2
                    some (digits, tc.1, s0.length - s16.length))))
          | _ => none)

/-- The global `exec` loop of sandbox.ts lines 77-87: find each
leftmost match at or after the end of the previous one, recording num
(via `parseInt`, 0 when the capture is empty), trimmed title
(`'Section'` when the capture is empty), `index` and `endIndex`. -/
def scanHeadersAux : Nat → Nat → Str → List HeaderMatch
  | 0, _, _ => []
  | _ + 1, _, [] => []
  | fuel + 1, pos, s =>
    match matchHeaderAt s with
    | some dtl =>
      let hm : HeaderMatch :=
        { num := if dtl.1.isEmpty then 0 else parseDigits dtl.1
          title := if dtl.2.1.isEmpty then str "Section" else jsTrim dtl.2.1
          index := pos
          endIndex := pos + dtl.2.2 }
      hm :: scanHeadersAux fuel (pos + dtl.2.2) (s.drop dtl.2.2)
    | none =>
      match s with
      | [] => []
      | _ :: rest => scanHeadersAux fuel (pos + 1) rest

/-- All section-header matches of `code`, in source order. -/
def scanHeaders (code : Str) : List HeaderMatch :=
  scanHeadersAux (code.length + 1) 0 code

/-- The extraction loop of sandbox.ts lines 101-121: each section's
content runs from its header's `endIndex` to the next header's
`index` (or the end of the file), trimmed; sections whose trimmed
content is empty are dropped. -/
def extractSections (code : Str) : List HeaderMatch → List CodeSection
  | [] => []
  | m :: rest =>
    let sectionEnd := match rest with
      | [] => code.length
      | m2 :: _ => m2.index
    let content := jsTrim (jsSubstring code m.endIndex sectionEnd)
    let tail := extractSections code rest
    if content.isEmpty then tail
    else { title := m.title, content := content, sectionNumber := m.num } :: tail

/-- sandbox.ts `parseCodeIntoSections`: scan for headers; with no
match return the whole code as a single fallback section, otherwise
extract the per-header sections. -/
def parseCodeIntoSections (code : Str) : List CodeSection :=
  let ms := scanHeaders code
  if ms.isEmpty then
    [{ title := str "Code complet", content := code, sectionNumber := 1 }]
  else extractSections code ms

/-- The trimmed inter-header bodies, in order: what each header's
section content would be. -/
def sectionBodies (code : Str) : List HeaderMatch → List Str
  | [] => []
  | m :: rest =>
    let sectionEnd := match rest with
      | [] => code.length
      | m2 :: _ => m2.index
    jsTrim (jsSubstring code m.endIndex sectionEnd) :: sectionBodies code rest

/-- The sections the spec promises for a well-formed match list: one
per header, in order, with trimmed inter-header content. -/
def expectedSections (code : Str) : List HeaderMatch → List CodeSection
  | [] => []
  | m :: rest =>
    let sectionEnd := match rest with
      | [] => code.length
      | m2 :: _ => m2.index
    { title := m.title
      content := jsTrim (jsSubstring code m.endIndex sectionEnd)
      sectionNumber := m.num } :: expectedSections code rest

/- ===================================================================
   Type-erasure transform (sandbox.ts `cleanCodeForExecution`,
   lines 131-256): a chain of global regex replacements, each embedded
   below as a scanner that resumes after every match, as a JS global
   `String.prototype.replace` does.
   =================================================================== -/

/-- Whether the characters consumed between `s` and its suffix `rest`
end with a newline (used to decide whether the position after a match
is a `^` line-start position of the multiline regexes). -/
def endsWithNl (s rest : Str) : Bool :=
  (s.take (s.length - rest.length)).getLast? == some '\n'

/-- Driver for a `^`-anchored (multiline) global replacement that
deletes its matches: try `matchAt` at every line-start position,
resume after each match, copy everything else. -/
def lineScan (matchAt : Str → Option Str) : Nat → Bool → Str → Str
  | 0, _, s => s
  | _ + 1, _, [] => []
  | fuel + 1, atStart, c :: rest =>
    if atStart then
      match matchAt (c :: rest) with
      | some rest2 => lineScan matchAt fuel (endsWithNl (c :: rest) rest2) rest2
      | none => c :: lineScan matchAt fuel (c == '\n') rest
    else c :: lineScan matchAt fuel (c == '\n') rest

/-- Driver for an unanchored global replacement: at each position try
`matchAt`, which yields the replacement text and the rest of the
input after the match. -/
def replScan (matchAt : Str → Option (Str × Str)) : Nat → Str → Str
  | 0, s => s
  | _ + 1, [] => []
  | fuel + 1, c :: rest =>
    match matchAt (c :: rest) with
    | some orr => orr.1 ++ replScan matchAt fuel orr.2
    | none => c :: replScan matchAt fuel rest

/-- Line 135, `^import\s+.*$` (multiline): the keyword, at least one
whitespace character (which, as JS `\s`, may span newlines), then the
rest of the current line. -/
def matchImportAt (s : Str) : Option Str :=
  match dropLit (str "import") s with
  | none => none
  | some s1 =>
    let w := countWhile jsIsWs s1
    if w == 0 then none else
    let s2 := s1.drop w
    some (s2.drop (countWhile (fun c => c != '\n') s2))

/-- Line 138, `^export\s+(default\s+)?` (multiline): remove a leading
`export`, its following whitespace, and optionally `default` plus its
following whitespace (the optional group needs at least one
whitespace character after `default` to participate). -/
def matchExportAt (s : Str) : Option Str :=
  match dropLit (str "export") s with
  | none => none
  | some s1 =>
    let w := countWhile jsIsWs s1
    if w == 0 then none else
    let s2 := s1.drop w
    match dropLit (str "default") s2 with
    | some s3 =>
      let w2 := countWhile jsIsWs s3
      if w2 == 0 then some s2 else some (s3.drop w2)
    | none => some s2

/-- Lazy search for the closing `*/` of a JSDoc comment. -/
def findJsDocClose : Nat → Str → Option Str
  | 0, _ => none
  | _ + 1, [] => none
  | _ + 1, '*' :: '/' :: rest => some rest
  | fuel + 1, _ :: rest => findJsDocClose fuel rest

/-- Line 142, `\/\*\*[\s\S]*?\*\//g`: a `/**` opener, the shortest
run of any characters, then `*/`; the whole match is deleted. -/
def matchJsDocAt (s : Str) : Option (Str × Str) :=
  match s with
  | '/' :: '*' :: '*' :: rest =>
    (findJsDocClose (rest.length + 1) rest).map (fun r => (([] : Str), r))
  | _ => none

/-- The `(type|interface)` alternation (first-match order; the two
literals start with distinct characters, so at most one applies). -/
def matchTsKeyword (s : Str) : Option Str :=
  match dropLit (str "type") s with
  | some r => some r
  | none => dropLit (str "interface") s

/-- Line 146, `^(type|interface)\s+\w+[^=]*=\s*[^;]+;?` (multiline):
keyword, whitespace, a word, anything up to the first `=` (possibly
across lines), the `=`, then at least one character up to the first
`;` (or end of input), and the `;` itself when present. -/
def matchTypeAliasAt (s : Str) : Option Str :=
  match matchTsKeyword s with
  | none => none
  | some s1 =>
    let w := countWhile jsIsWs s1
    if w == 0 then none else
    let s2 := s1.drop w
    let d := countWhile isWordChar s2
    if d == 0 then none else
    let s3 := s2.drop d
    let e := countWhile (fun c => c != '=') s3
    match s3.drop e with
    | '=' :: s5 =>
      let r := countWhile (fun c => c != ';') s5
      if r == 0 then none else
      match s5.drop r with
      | ';' :: s7 => some s7
      | s6 => some s6
    | _ => none

/-- Index of the last newline of `l`, if any. -/
def lastNlIndex (l : Str) : Option Nat :=
  ((List.range l.length).reverse).find? (fun i => l.get? i == some '\n')

/-- Lazy search for a `\}` whose following `\s*$` (multiline) closes
the interface-body pattern: the `$` is taken greedily, i.e. at end of
input when only whitespace remains, else just before the last newline
of the whitespace run after the brace. -/
def ifaceCloseSearch : Nat → Str → Option Str
  | 0, _ => none
  | _ + 1, [] => none
  | fuel + 1, '}' :: rest =>
    let w := countWhile jsIsWs rest
    if w == rest.length then some (rest.drop w)
    else
      match lastNlIndex (rest.take w) with
      | some j => some (rest.drop j)
      | none => ifaceCloseSearch fuel rest
  | fuel + 1, _ :: rest => ifaceCloseSearch fuel rest

/-- Line 147, `^(type|interface)\s+\w+\s*\{[\s\S]*?\}\s*$` (multiline):
keyword, whitespace, a word, an opening brace, the shortest body whose
closing brace is followed by only whitespace up to a line end. -/
def matchInterfaceBlockAt (s : Str) : Option Str :=
  match matchTsKeyword s with
  | none => none
  | some s1 =>
    let w := countWhile jsIsWs s1
    if w == 0 then none else
    let s2 := s1.drop w
    let d := countWhile isWordChar s2
    if d == 0 then none else
    let s3 := s2.drop d
    let s4 := s3.drop (countWhile jsIsWs s3)
    match s4 with
    | '{' :: s5 => ifaceCloseSearch (s5.length + 1) s5
    | _ => none

/-- The `(?:,\s*[A-Z]\w*)*>` tail of the generic-parameter patterns
(lines 151-155): after an uppercase identifier, either the closing
`>` or a comma, whitespace, and another uppercase identifier. -/
def genericTailAux : Nat → Str → Option Str
  | 0, _ => none
  | _ + 1, [] => none
  | _ + 1, '>' :: rest => some rest
  | fuel + 1, ',' :: rest =>
    let w := countWhile jsIsWs rest
    match rest.drop w with
    | c :: r2 =>
      if c.isUpper then genericTailAux fuel (r2.drop (countWhile isWordChar r2))
      else none
    | [] => none
  | _ + 1, _ => none

/-- Line 151, `(function\s+\w+)\s*<[A-Z]\w*(?:,\s*[A-Z]\w*)*>` replaced
by `$1`: drop a generic-parameter list after a function name (the
list must start with an uppercase identifier). -/
def matchFnGenericAt (s : Str) : Option (Str × Str) :=
  match dropLit (str "function") s with
  | none => none
  | some s1 =>
    let w := countWhile jsIsWs s1
    if w == 0 then none else
    let s2 := s1.drop w
    let d := countWhile isWordChar s2
    if d == 0 then none else
    let s3 := s2.drop d
    let w2 := countWhile jsIsWs s3
    match s3.drop w2 with
    | '<' :: s5 =>
      match s5 with
      | c :: s6 =>
        if c.isUpper then
          match genericTailAux (s6.length + 1) (s6.drop (countWhile isWordChar s6)) with
          | some rest => some (s.take (8 + w + d), rest)
          | none => none
        else none
      | [] => none
    | _ => none

/-- Lines 152-155, `(const\s+\w+\s*:\s*\([^)]*\)\s*=>)\s*<[A-Z]\w*(?:,\s*[A-Z]\w*)*>`
replaced by `$1`: drop a generic-parameter list after a typed
arrow-function head. -/
def matchArrowHeadGenericAt (s : Str) : Option (Str × Str) :=
  match dropLit (str "const") s with
  | none => none
  | some s1 =>
    let w := countWhile jsIsWs s1
    if w == 0 then none else
    let s2 := s1.drop w
    let d := countWhile isWordChar s2
    if d == 0 then none else
    let s3 := s2.drop d
    let w2 := countWhile jsIsWs s3
    match s3.drop w2 with
    | ':' :: s4 =>
      let w3 := countWhile jsIsWs s4
      match s4.drop w3 with
      | '(' :: s5 =>
        let p := countWhile (fun c => c != ')') s5
        match s5.drop p with
        | ')' :: s6 =>
          let w4 := countWhile jsIsWs s6
          match dropLit (str "=>") (s6.drop w4) with
          | some s7 =>
            let capLen := 5 + w + d + w2 + 1 + w3 + 1 + p + 1 + w4 + 2
            let w5 := countWhile jsIsWs s7
            match s7.drop w5 with
            | '<' :: s8 =>
              match s8 with
              | c :: s9 =>
                if c.isUpper then
                  match genericTailAux (s9.length + 1)
                      (s9.drop (countWhile isWordChar s9)) with
                  | some rest => some (s.take capLen, rest)
                  | none => none
                else none
              | [] => none
            | _ => none
          | none => none
        | _ => none
      | _ => none
    | _ => none

/-- The `(?:\s*:\s*[^=]+)?` optional type group followed by the
anchored `(\s*=.*)?$` tail shared by the parameter regexes of lines
174 and 183: whitespace, a colon, at least one character up to the
first `=` (which, being greedy, also swallows the whitespace before a
default value), then either the `=` and a newline-free remainder to
the end, or the end of the string.  Returns the captured
default-value suffix (empty when the group is absent). -/
def tryWithType (rest0 : Str) : Option Str :=
  let w := countWhile jsIsWs rest0
  match rest0.drop w with
  | ':' :: r1 =>
    let n := countWhile (fun c => c != '=') r1
    if n == 0 then none else
    match r1.drop n with
    | '=' :: r3 => if r3.any (fun c => c == '\n') then none else some ('=' :: r3)
    | [] => some []
    | _ => none
  | _ => none

/-- The same tail with the type group absent: `(\s*=.*)?$` directly. -/
def tryNoType (rest0 : Str) : Option Str :=
  if rest0.isEmpty then some [] else
  let w := countWhile jsIsWs rest0
  match rest0.drop w with
  | '=' :: r3 =>
    if r3.any (fun c => c == '\n') then none
    else some (rest0.take w ++ '=' :: r3)
  | _ => none

/-- Ordered backtracking over the optional type group: the greedy `?`
tries the group present first. -/
def tryTypeThenDefault (rest0 : Str) : Option Str :=
  match tryWithType rest0 with
  | some dflt => some dflt
  | none => tryNoType rest0

/-- Line 183 / line 210, `^(\w+)(?:\s*:\s*[^=]+)?(\s*=.*)?$` on a
trimmed parameter: the name and the captured default suffix. -/
def jsParamMatch (t : Str) : Option (Str × Str) :=
  let d := countWhile isWordChar t
  if d == 0 then none else
  match tryTypeThenDefault (t.drop d) with
  | some dflt => some (t.take d, dflt)
  | none => none

/-- Line 174, `^\.\.\.(\w+)(?:\s*:\s*[^=]+)?(\s*=.*)?$`: the rest
parameter of a `function` declaration, rebuilt as
`'...' + name + (default-suffix or '')`. -/
def restMatchFn (t : Str) : Option Str :=
  match t with
  | '.' :: '.' :: '.' :: r =>
    let d := countWhile isWordChar r
    if d == 0 then none else
    match tryTypeThenDefault (r.drop d) with
    | some dflt => some (str "..." ++ r.take d ++ dflt)
    | none => none
  | _ => none

/-- Line 207, `^\.\.\.(\w+)(?:\s*:\s*[^=]+)?$`: the rest parameter of
an arrow function (no default-value group), rebuilt as `'...' + name`. -/
def restMatchArrow (t : Str) : Option Str :=
  match t with
  | '.' :: '.' :: '.' :: r =>
    let d := countWhile isWordChar r
    if d == 0 then none else
    let rest0 := r.drop d
    if rest0.isEmpty then some (str "..." ++ r.take d) else
    let w := countWhile jsIsWs rest0
    match rest0.drop w with
    | ':' :: r1 =>
      let n := countWhile (fun c => c != '=') r1
      if n == 0 then none
      else if (r1.drop n).isEmpty then some (str "..." ++ r.take d) else none
    | _ => none
  | _ => none

/-- Line 189 / line 214, the non-global fallback
`trimmed.replace(/:\s*[^=,]+/, '')`: delete the first colon that is
followed (after whitespace) by at least one character other than `=`
or `,`, together with that run. -/
def fallbackColonStripAux : Nat → Str → Str
  | 0, s => s
  | _ + 1, [] => []
  | fuel + 1, ':' :: rest =>
    let n := countWhile (fun c => c != '=' && c != ',') rest
    if n == 0 then ':' :: fallbackColonStripAux fuel rest
    else rest.drop n
  | fuel + 1, c :: rest => c :: fallbackColonStripAux fuel rest

/-- The shared tail of both per-parameter callbacks: the anchored
parameter match, else the colon-strip fallback, both trimmed. -/
def cleanParamFallthrough (t : Str) : Str :=
  match jsParamMatch t with
  | some nd => jsTrim (nd.1 ++ nd.2)
  | none => jsTrim (fallbackColonStripAux (t.length + 1) t)

/-- One parameter of the callbacks at lines 167-190 (function) and
203-214 (arrow): trim, drop `this:` parameters, rebuild rest
parameters, else strip the type annotation. -/
def cleanParamCommon (isArrow : Bool) (param : Str) : Str :=
  let t := jsTrim param
  if (str "this:").isPrefixOf t then []
  else if (str "...").isPrefixOf t then
    match (if isArrow then restMatchArrow t else restMatchFn t) with
    | some r => r
    | none => cleanParamFallthrough t
  else cleanParamFallthrough t

/-- `params.split(',').map(...).filter((p) => p.length > 0).join(', ')`. -/
def cleanedParamsJoin (isArrow : Bool) (params : Str) : Str :=
  List.intercalate (str ", ")
    (((splitOnComma params).map (cleanParamCommon isArrow)).filter
      (fun p => p.length > 0))

/-- Lines 161-195, `function\s+(\w+)\s*\(([^)]*)\)` with its callback:
rebuild the declaration as `function name(cleaned-params)`. -/
def matchFnParamsAt (s : Str) : Option (Str × Str) :=
  match dropLit (str "function") s with
  | none => none
  | some s1 =>
    let w := countWhile jsIsWs s1
    if w == 0 then none else
    let s2 := s1.drop w
    let d := countWhile isWordChar s2
    if d == 0 then none else
    let name := s2.take d
    let s3 := s2.drop d
    let w2 := countWhile jsIsWs s3
    match s3.drop w2 with
    | '(' :: s4 =>
      let p := countWhile (fun c => c != ')') s4
      match s4.drop p with
      | ')' :: s5 =>
        let params := s4.take p
        let out :=
          if (jsTrim params).isEmpty then str "function " ++ name ++ str "()"
          else str "function " ++ name ++ str "(" ++ cleanedParamsJoin false params ++ str ")"
        some (out, s5)
      | _ => none
    | _ => none

/-- Lines 198-220, `\(([^)]*)\)\s*=>` with its callback: rebuild the
arrow head as `(cleaned-params) =>`. -/
def matchArrowParamsAt (s : Str) : Option (Str × Str) :=
  match s with
  | '(' :: s1 =>
    let p := countWhile (fun c => c != ')') s1
    match s1.drop p with
    | ')' :: s2 =>
      let w := countWhile jsIsWs s2
      match dropLit (str "=>") (s2.drop w) with
      | some s3 =>
        let params := s1.take p
        let out :=
          if (jsTrim params).isEmpty then str "() =>"
          else str "(" ++ cleanedParamsJoin true params ++ str ") =>"
        some (out, s3)
      | none => none
    | _ => none
  | _ => none

/-- Characters excluded by `[^{=>\n]`. -/
def notRtChar (c : Char) : Bool :=
  !(c == '{' || c == '=' || c == '>' || c == '\n')

/-- Length consumed by the greedy `\s*[^{=>\n]+` of the inner
replacement at line 224 (no continuation, so: the longest whitespace
prefix whose following `[^{=>\n]` run is non-empty, plus that run). -/
def innerRtLen (rest : Str) : Nat :=
  let aMax := countWhile jsIsWs rest
  match ((List.range (aMax + 1)).reverse).findSome? (fun a =>
    let r := countWhile notRtChar (rest.drop a)
    if r > 0 then some (a + r) else none) with
  | some n => n
  | none => 0

/-- Lines 223-225, `\)\s*:\s*[^{=>\n]+(\s*\{|\s*=>)` with the callback
that re-replaces `\)\s*:\s*[^{=>\n]+` inside the match by `)`: a
return-type annotation between a closing parenthesis and the `{` or
`=>` opening the body is deleted (together, greedily, with the
whitespace before the body opener when it contains no newline). -/
def matchReturnTypeAt (s : Str) : Option (Str × Str) :=
  match s with
  | ')' :: s1 =>
    let w := countWhile jsIsWs s1
    match s1.drop w with
    | ':' :: s2 =>
      let aMax := countWhile jsIsWs s2
      match ((List.range (aMax + 1)).reverse).findSome? (fun a =>
        let sB := s2.drop a
        let bMax := countWhile notRtChar sB
        (((List.range bMax).reverse).map (fun b => b + 1)).findSome? (fun b =>
          let sC := sB.drop b
          let cw := countWhile jsIsWs sC
          match sC.drop cw with
          | '{' :: r => some (a + b + cw + 1, r)
          | '=' :: '>' :: r => some (a + b + cw + 2, r)
          | _ => none)) with
      | some tr =>
        let m := s.take (2 + w + tr.1)
        let mAfterColon := m.drop (2 + w)
        some (')' :: mAfterColon.drop (innerRtLen mAfterColon), tr.2)
      | none => none
    | _ => none
  | _ => none

/-- The `(const|let|var)` alternation (distinct first characters, so
at most one literal applies); returns the matched keyword text and
the rest. -/
def matchDeclKeyword (s : Str) : Option (Str × Str) :=
  match dropLit (str "const") s with
  | some r => some (str "const", r)
  | none =>
    match dropLit (str "let") s with
    | some r => some (str "let", r)
    | none =>
      match dropLit (str "var") s with
      | some r => some (str "var", r)
      | none => none

/-- Lines 232-235,
`(const|let|var)\s+(\w+)\s*:\s*\([^)]*\)\s*=>\s*[\s\S]*?=\s*(\([^)]*\)\s*=>)`
replaced by `$1 $2 = $3`: collapse a typed arrow-function variable
declaration, keeping the initializer's arrow head. -/
def matchTypedArrowDeclAt (s : Str) : Option (Str × Str) :=
  match matchDeclKeyword s with
  | none => none
  | some kr =>
    let s1 := kr.2
    let w := countWhile jsIsWs s1
    if w == 0 then none else
    let s2 := s1.drop w
    let d := countWhile isWordChar s2
    if d == 0 then none else
    let name := s2.take d
    let s3 := s2.drop d
    let w2 := countWhile jsIsWs s3
    match s3.drop w2 with
    | ':' :: s4 =>
      let w3 := countWhile jsIsWs s4
      match s4.drop w3 with
      | '(' :: s5 =>
        let p := countWhile (fun c => c != ')') s5
        match s5.drop p with
        | ')' :: s6 =>
          let w4 := countWhile jsIsWs s6
          match dropLit (str "=>") (s6.drop w4) with
          | some s7 =>
            (List.range s7.length).findSome? (fun k =>
              if s7.get? k == some '=' then
                let r := s7.drop (k + 1)
                let w5 := countWhile jsIsWs r
                match r.drop w5 with
                | '(' :: r1 =>
                  let q := countWhile (fun c => c != ')') r1
                  match r1.drop q with
                  | ')' :: r2 =>
                    let w6 := countWhile jsIsWs r2
                    match dropLit (str "=>") (r2.drop w6) with
                    | some r3 =>
                      let cap3 := '(' :: r1.take q ++ ')' :: r2.take w6 ++ str "=>"
                      some (kr.1 ++ ' ' :: name ++ str " = " ++ cap3, r3)
                    | none => none
                  | _ => none
                | _ => none
              else none)
          | none => none
        | _ => none
      | _ => none
    | _ => none

/-- Line 241, `(const|let|var)\s+(\w+)\s*:\s*[^=]+(\s*=)` replaced by
`$1 $2$3`: strip a variable type annotation (the greedy `[^=]+` also
swallows the whitespace before `=`, so the captured `$3` is the bare
`=`). -/
def matchVarAnnotationAt (s : Str) : Option (Str × Str) :=
  match matchDeclKeyword s with
  | none => none
  | some kr =>
    let s1 := kr.2
    let w := countWhile jsIsWs s1
    if w == 0 then none else
    let s2 := s1.drop w
    let d := countWhile isWordChar s2
    if d == 0 then none else
    let name := s2.take d
    let s3 := s2.drop d
    let w2 := countWhile jsIsWs s3
    match s3.drop w2 with
    | ':' :: s4 =>
      let n := countWhile (fun c => c != '=') s4
      if n == 0 then none else
      match s4.drop n with
      | '=' :: s5 => some (kr.1 ++ ' ' :: name ++ str "=", s5)
      | _ => none
    | _ => none

/-- The ordered alternation of lines 244-247.  The trailing
`readonly\s+\[[^\]]+\]` alternative of the source is unreachable:
ordered alternation always lets the plain `readonly` literal succeed
first, so it is omitted here. -/
def asTypeAlternatives : List Str :=
  [str "const", str "number", str "string", str "boolean", str "any",
   str "unknown", str "void", str "never", str "readonly"]

/-- Lines 244-247, `\s+as\s+(const|number|string|...)` deleted: the
whitespace, the `as`, more whitespace and the first matching keyword
literal (no word boundary: `as constant` loses its `as const`). -/
def matchAsAssertionAt (s : Str) : Option (Str × Str) :=
  let w := countWhile jsIsWs s
  if w == 0 then none else
  match dropLit (str "as") (s.drop w) with
  | none => none
  | some s1 =>
    let w2 := countWhile jsIsWs s1
    if w2 == 0 then none else
    let s2 := s1.drop w2
    match asTypeAlternatives.findSome? (fun alt => dropLit alt s2) with
    | some rest => some (([] : Str), rest)
    | none => none

/-- Indices, within the leading whitespace run of `s`, holding a
newline; in descending order (greedy `\s*` before a literal `\n`). -/
def nlIndexCandidates (s : Str) : List Nat :=
  let w := countWhile jsIsWs s
  ((List.range w).filter (fun i => s.get? i == some '\n')).reverse

/-- Line 250, `\n\s*\n\s*\n+` replaced by `'\n\n'`: a whitespace-only
stretch containing at least three newlines collapses to a blank line
(the backtracking picks the two greedy `\s*` splits, then the maximal
final newline run). -/
def matchBlankRunAt (s : Str) : Option (Str × Str) :=
  match s with
  | '\n' :: rest =>
    (nlIndexCandidates rest).findSome? (fun i =>
      let r2 := rest.drop (i + 1)
      (nlIndexCandidates r2).findSome? (fun j =>
        let k := countWhile (fun c => c == '\n') (r2.drop j)
        some (str "\n\n", r2.drop (j + k))))
  | _ => none

/-- Step 1 of `cleanCodeForExecution` (line 135). -/
def removeImports (s : Str) : Str := lineScan matchImportAt (s.length + 1) true s

/-- Step 2 (line 138). -/
def removeExports (s : Str) : Str := lineScan matchExportAt (s.length + 1) true s

/-- Step 3 (line 142). -/
def removeJsDoc (s : Str) : Str := replScan matchJsDocAt (s.length + 1) s

/-- Step 4 (line 146). -/
def removeTypeAliasDecls (s : Str) : Str :=
  lineScan matchTypeAliasAt (s.length + 1) true s

/-- Step 5 (line 147). -/
def removeInterfaceBlockDecls (s : Str) : Str :=
  lineScan matchInterfaceBlockAt (s.length + 1) true s

/-- Step 6 (line 151). -/
def removeFnGenerics (s : Str) : Str := replScan matchFnGenericAt (s.length + 1) s

/-- Step 7 (lines 152-155). -/
def removeArrowHeadGenerics (s : Str) : Str :=
  replScan matchArrowHeadGenericAt (s.length + 1) s

/-- Step 8 (lines 161-195). -/
def cleanFnParamLists (s : Str) : Str := replScan matchFnParamsAt (s.length + 1) s

/-- Step 9 (lines 198-220). -/
def cleanArrowParamLists (s : Str) : Str :=
  replScan matchArrowParamsAt (s.length + 1) s

/-- Step 10 (lines 223-225). -/
def removeReturnTypes (s : Str) : Str := replScan matchReturnTypeAt (s.length + 1) s

/-- Step 11 (lines 232-235). -/
def collapseTypedArrowDecls (s : Str) : Str :=
  replScan matchTypedArrowDeclAt (s.length + 1) s

/-- Step 12 (line 241). -/
def removeVarAnnotations (s : Str) : Str :=
  replScan matchVarAnnotationAt (s.length + 1) s

/-- Step 13 (lines 244-247). -/
def removeAsAssertions (s : Str) : Str :=
  replScan matchAsAssertionAt (s.length + 1) s

/-- Step 14 (line 250). -/
def collapseBlankLines (s : Str) : Str := replScan matchBlankRunAt (s.length + 1) s

/-- sandbox.ts `cleanCodeForExecution` (lines 131-256), the spec's
`stripTypes`: the fourteen replacement steps in source order,
followed by the final `trim` of line 253. -/
def cleanCodeForExecution (code : Str) : Str :=
  let c1 := removeImports code
  let c2 := removeExports c1
  let c3 := removeJsDoc c2
  let c4 := removeTypeAliasDecls c3
  let c5 := removeInterfaceBlockDecls c4
  let c6 := removeFnGenerics c5
  let c7 := removeArrowHeadGenerics c6
  let c8 := cleanFnParamLists c7
  let c9 := cleanArrowParamLists c8
  let c10 := removeReturnTypes c9
  let c11 := collapseTypedArrowDecls c10
  let c12 := removeVarAnnotations c11
  let c13 := removeAsAssertions c12
  let c14 := collapseBlankLines c13
  jsTrim c14

/- ===================================================================
   Execution engine (sandbox.ts `executeCode`, lines 263-383)

   The dynamic step `new Function(cleanCode)()` cannot be embedded; a
   call's observable behaviour is abstracted as a `RunEffect`: the
   sequence of console calls the fragment makes through the installed
   channels (with their raw argument values), an optional
   thrown-error message (`e.message` / `String(e)` of line 361, also
   covering a compilation failure of the cleaned text), and the
   mutation the fragment applies to the global console record.  The
   engine's own logic — cleaning, the empty-input check, message
   formatting, error classification and augmentation, log collection,
   and console substitution/restoration — is embedded from the source.
   `timestamp : Date` fields are not modelled (wall-clock values).
   =================================================================== -/

/-- The four console channels (`'log' | 'info' | 'warn' | 'error'`). -/
inductive LogType where
  | log
  | info
  | warn
  | error
deriving DecidableEq

/-- One captured log line (sandbox.ts `SandboxResult['logs']` element,
without the unmodelled `timestamp`). -/
structure LogEntry where
  type : LogType
  message : Str
deriving DecidableEq

/-- sandbox.ts `SandboxResult`. -/
structure SandboxResult where
  logs : List LogEntry
  error : Option Str
deriving DecidableEq

/-- JS values as far as the formatting code of lines 276-304 and
385-397 inspects them.  Objects are abstracted by the outcomes of
their serializations: `pretty` models `JSON.stringify(v, null, 2)`,
`compact` models `JSON.stringify(v)` (`none` when stringification
throws, e.g. on cycles), `toStr` models `String(v)`. -/
inductive JSValue where
  | vnull
  | vundef
  | vbool (b : Bool)
  | vnum (n : Int)
  | vstr (s : Str)
  | varr (elems : List JSValue)
  | vfun (name : Str) (srcText : Str)
  | vobj (pretty : Option Str) (compact : Option Str) (toStr : Str)

mutual

/-- `JSON.stringify(v)` for array elements (shallow model). -/
def jsonCompact : JSValue → Str
  | .vnull => str "null"
  | .vundef => str "null"
  | .vbool b => if b then str "true" else str "false"
  | .vnum n => intToStr n
  | .vstr s => '"' :: s ++ ['"']
  | .varr es => '[' :: List.intercalate (str ",") (jsonCompactList es) ++ [']']
  | .vfun _ _ => str "null"
  | .vobj _ compact _ => compact.getD (str "null")

/-- `jsonCompact` on each element of a list. -/
def jsonCompactList : List JSValue → List Str
  | [] => []
  | v :: vs => jsonCompact v :: jsonCompactList vs

end

/-- sandbox.ts `formatValue` (lines 385-397), used for the elements
of an array argument. -/
def formatValue : JSValue → Str
  | .vnull => str "null"
  | .vundef => str "undefined"
  | .vstr s => '"' :: s ++ ['"']
  | .varr es => jsonCompact (.varr es)
  | .vobj _ compact toStr => compact.getD toStr
  | .vbool b => if b then str "true" else str "false"
  | .vnum n => intToStr n
  | .vfun _ srcText => srcText

/-- One argument of a captured console call (lines 277-295): `null` /
`undefined` literally, arrays bracketed with `formatValue` elements,
objects pretty-printed and truncated past 500 characters (default
string conversion when stringification throws), functions as
`[Function: name]`, everything else by default string conversion. -/
def formatArg : JSValue → Str
  | .vnull => str "null"
  | .vundef => str "undefined"
  | .varr es => '[' :: List.intercalate (str ", ") (es.map formatValue) ++ [']']
  | .vobj pretty _ toStr =>
    match pretty with
    | some f => if f.length > 500 then f.take 500 ++ str "..." else f
    | none => toStr
  | .vfun name _ =>
    str "[Function: " ++ (if name.isEmpty then str "anonymous" else name) ++ [']']
  | .vnum n => intToStr n
  | .vstr s => s
  | .vbool b => if b then str "true" else str "false"

/-- The message of one captured call: each positional argument
formatted, joined with a single space (line 296). -/
def captureMessage (args : List JSValue) : Str :=
  List.intercalate (str " ") (args.map formatArg)

/-- The global console record (the four channels replaced at lines
307-310 and restored at lines 376-379), with channel values of an
arbitrary type `α`. -/
structure ConsoleState (α : Type) where
  log : α
  info : α
  warn : α
  error : α

/-- The observable behaviour of invoking the compiled cleaned code:
the console calls it performs (channel and raw arguments, in order),
the message of its thrown error if it throws (after the calls), and
the mutation it applies to the global console record. -/
structure RunEffect (α : Type) where
  events : List (LogType × List JSValue)
  thrown : Option Str
  consoleAfter : ConsoleState α → ConsoleState α

/-- The message of the `Error` thrown at lines 320-322 when the
cleaned code is empty. -/
def emptyCleanMsg : Str :=
  str "Le code est vide après nettoyage. Vérifiez que le fichier contient du code exécutable."

/-- The advisory appended for syntax-shaped failures (line 343). -/
def syntaxNote : Str :=
  str "\n\nNote: Certaines syntaxes TypeScript avancées peuvent ne pas être supportées. Vérifiez que le code est du JavaScript valide."

/-- The advisory appended for reference-shaped failures (line 354). -/
def refNote : Str :=
  str "\n\nNote: Vérifiez que toutes les variables et fonctions sont bien définies avant d'être utilisées."

/-- The advisory appended when the message mentions `process`
(lines 364-367). -/
def processNote : Str :=
  str "\n\nNote: \"process\" n'est pas disponible dans le navigateur. Utilisez uniquement des APIs du navigateur."

/-- Lines 332-358: classify the message of a throw from the invoked
code by substring matching, prefixing and suffixing the advisory for
syntax-shaped and reference-shaped failures, passing anything else
through unchanged. -/
def classifyExecError (m : Str) : Str :=
  if jsIncludes m (str "Unexpected token") ||
     jsIncludes m (str "Unexpected identifier") ||
     jsIncludes m (str "Unexpected end of input") then
    str "Erreur de syntaxe: " ++ m ++ syntaxNote
  else if jsIncludes m (str "is not defined") ||
     jsIncludes m (str "Cannot access") ||
     jsIncludes m (str "is not a function") then
    str "Erreur d'exécution: " ++ m ++ refNote
  else m

/-- Lines 364-367: append the browser-environment advisory when the
error message contains `process`. -/
def processHint (m : Str) : Str :=
  if jsIncludes m (str "process") then m ++ processNote else m

/-- sandbox.ts `executeCode` (lines 263-383) with the console state
threaded explicitly: snapshot the original channels, install the
capturing channels, clean the code, fail on empty cleaned code, else
run the fragment, collect its console calls as log entries, convert a
throw into the augmented error message stored both as `error` and as
a final error-kind log entry, and — on every path, as the `finally`
of lines 374-380 — return the console to the snapshot, discarding
whatever the fragment left in the channels. -/
def executeCodeFull {α : Type} (code : Str) (run : Str → RunEffect α)
    (c0 : ConsoleState α) (cap : LogType → α) : SandboxResult × ConsoleState α :=
  let originalConsole := c0
  let installed : ConsoleState α :=
    { log := cap LogType.log, info := cap LogType.info
      warn := cap LogType.warn, error := cap LogType.error }
  let restored : ConsoleState α :=
    { log := originalConsole.log, info := originalConsole.info
      warn := originalConsole.warn, error := originalConsole.error }
  let cleanCode := cleanCodeForExecution code
  if (jsTrim cleanCode).isEmpty then
    let e := processHint emptyCleanMsg
    ({ logs := [{ type := LogType.error, message := e }], error := some e }, restored)
  else
    let eff := run cleanCode
    let capturedLogs := eff.events.map
      (fun ev => { type := ev.1, message := captureMessage ev.2 : LogEntry })
    let _afterRun := eff.consoleAfter installed
    match eff.thrown with
    | none => ({ logs := capturedLogs, error := none }, restored)
    | some m =>
      let e := processHint (classifyExecError m)
      ({ logs := capturedLogs ++ [{ type := LogType.error, message := e }],
         error := some e }, restored)

/-- The result of `executeCode` as seen by the caller. -/
def executeCode (code : Str) (run : Str → RunEffect Unit) : SandboxResult :=
  (executeCodeFull code run { log := (), info := (), warn := (), error := () }
    (fun _ => ())).1

/- ===================================================================
   Concrete inputs used by witnesses
   =================================================================== -/

/-- A separator of exactly sixty `=` characters. -/
def eqs60 : Str := List.replicate 60 '='

/-- A source with two well-formed headers, each followed by a
non-empty body. -/
def c4code : Str :=
  str "//" ++ eqs60 ++ str "\n// SECTION 1: Alpha\n//" ++ eqs60 ++
  str "\nlet a = 1\n//" ++ eqs60 ++ str "\n// SECTION 2: Beta\n//" ++ eqs60 ++
  str "\nlet b = 2"

/-- The two header matches of `c4code`. -/
def c4ms : List HeaderMatch :=
  [{ num := 1, title := str "Alpha", index := 0, endIndex := 145 },
   { num := 2, title := str "Beta", index := 156, endIndex := 300 }]

/-- A source that is exactly one well-formed header with nothing
after it. -/
def c10code : Str :=
  str "//" ++ eqs60 ++ str "\n// SECTION 1: T\n//" ++ eqs60

/-- The single header match of `c10code`. -/
def c10ms : List HeaderMatch :=
  [{ num := 1, title := str "T", index := 0, endIndex := 141 }]

/- ===================================================================
   Helper lemmas
   =================================================================== -/

set_option maxRecDepth 10000

/-- `executeCode` on the empty-after-cleaning path. -/
theorem executeCode_empty_eq (code : Str) (run : Str → RunEffect Unit)
    (h : (jsTrim (cleanCodeForExecution code)).isEmpty = true) :
    executeCode code run =
      { logs := [{ type := LogType.error, message := processHint emptyCleanMsg }],
        error := some (processHint emptyCleanMsg) } := by
  unfold executeCode executeCodeFull
  simp only [h, if_true]

/-- `executeCode` on the path that runs the cleaned code. -/
theorem executeCode_run_eq (code : Str) (run : Str → RunEffect Unit)
    (h : (jsTrim (cleanCodeForExecution code)).isEmpty = false) :
    executeCode code run =
      match (run (cleanCodeForExecution code)).thrown with
      | none =>
        { logs := (run (cleanCodeForExecution code)).events.map
            (fun ev => { type := ev.1, message := captureMessage ev.2 }),
          error := none }
      | some m =>
        { logs := (run (cleanCodeForExecution code)).events.map
            (fun ev => { type := ev.1, message := captureMessage ev.2 })
            ++ [{ type := LogType.error, message := processHint (classifyExecError m) }],
          error := some (processHint (classifyExecError m)) } := by
  unfold executeCode executeCodeFull
  simp only [h, Bool.false_eq_true, if_false]
  cases (run (cleanCodeForExecution code)).thrown <;> rfl

/-- The empty-after-cleaning message does not mention `process`, so
the hint of lines 364-367 leaves it unchanged. -/
theorem processHint_emptyCleanMsg : processHint emptyCleanMsg = emptyCleanMsg := by decide

/-- When every trimmed body is non-empty, the extraction loop keeps
every header's section. -/
theorem extractSections_eq_expected (code : Str) :
    ∀ ms : List HeaderMatch,
      (sectionBodies code ms).all (fun b => !b.isEmpty) = true →
      extractSections code ms = expectedSections code ms := by
  intro ms
  induction ms with
  | nil => intro _; rfl
  | cons m rest ih =>
    intro h
    simp only [sectionBodies, List.all_cons, Bool.and_eq_true] at h
    obtain ⟨h1, h2⟩ := h
    simp only [extractSections, expectedSections, ih h2]
    rw [Bool.not_eq_true'] at h1
    simp only [h1, Bool.false_eq_true, if_false]

/-- `expectedSections` has one section per header. -/
theorem expectedSections_length (code : Str) :
    ∀ ms : List HeaderMatch, (expectedSections code ms).length = ms.length := by
  intro ms
  induction ms with
  | nil => rfl
  | cons m rest ih =>
    simp only [expectedSections, List.length_cons, ih]

/-- When every trimmed body is empty, the extraction loop drops every
header's section. -/
theorem extractSections_nil_of_all_empty (code : Str) :
    ∀ ms : List HeaderMatch,
      (sectionBodies code ms).all (fun b => b.isEmpty) = true →
      extractSections code ms = [] := by
  intro ms
  induction ms with
  | nil => intro _; rfl
  | cons m rest ih =>
    intro h
    simp only [sectionBodies, List.all_cons, Bool.and_eq_true] at h
    obtain ⟨h1, h2⟩ := h
    simp only [extractSections, ih h2]
    simp only [h1, if_true]

/-- With at least one header found, `parseCodeIntoSections` runs the
extraction loop. -/
theorem parseCodeIntoSections_of_scan (code : Str) (ms : List HeaderMatch)
    (hscan : scanHeaders code = ms) (hne : ms ≠ []) :
    parseCodeIntoSections code = extractSections code ms := by
  unfold parseCodeIntoSections
  rw [hscan]
  simp only [List.isEmpty_eq_true, hne, if_false]

/- ===================================================================
   Claim theorems
   =================================================================== -/

/-- C1: for every invocation of `executeCode`, if the returned
result's `error` field is present then the `logs` sequence is
non-empty and its final entry has kind `error` and carries exactly
the same message string as the `error` field. -/
theorem executeCode_error_implies_final_error_log (code : Str)
    (run : Str → RunEffect Unit) (e : Str)
    (h : (executeCode code run).error = some e) :
    (executeCode code run).logs.getLast? =
      some { type := LogType.error, message := e } := by
  by_cases hc : (jsTrim (cleanCodeForExecution code)).isEmpty = true
  · rw [executeCode_empty_eq code run hc] at h ⊢
    simp only [Option.some.injEq] at h
    subst h
    rfl
  · rw [Bool.not_eq_true] at hc
    rw [executeCode_run_eq code run hc] at h ⊢
    cases hth : (run (cleanCodeForExecution code)).thrown with
    | none =>
      simp only [hth] at h
      exact Option.noConfusion h
    | some m =>
      simp only [hth, Option.some.injEq] at h ⊢
      subst h
      exact List.getLast?_concat _

/-- C1 witness: the empty input takes the empty-after-cleaning path,
whose result has `error` present and whose final (only) log entry is
an error-kind entry with the same message. -/
theorem executeCode_error_implies_final_error_log_witness :
    (executeCode (str "") (fun _ => ⟨[], none, id⟩)).error =
      some (processHint emptyCleanMsg) ∧
    (executeCode (str "") (fun _ => ⟨[], none, id⟩)).logs.getLast? =
      some { type := LogType.error, message := processHint emptyCleanMsg } :=
  ⟨by decide,
   executeCode_error_implies_final_error_log (str "") (fun _ => ⟨[], none, id⟩)
     (processHint emptyCleanMsg) (by decide)⟩

/-- C2: `executeCode` always returns a result (it is a total
function of the input and of the executed fragment's behaviour), and
its `error` field is present exactly when a failure occurred — the
cleaned text was empty, or the invoked code threw — so every failure
is converted into data rather than propagated. -/
theorem executeCode_total_failure_as_data (code : Str) (run : Str → RunEffect Unit) :
    (executeCode code run).error.isSome =
      ((jsTrim (cleanCodeForExecution code)).isEmpty ||
        (run (cleanCodeForExecution code)).thrown.isSome) := by
  by_cases hc : (jsTrim (cleanCodeForExecution code)).isEmpty = true
  · rw [executeCode_empty_eq code run hc, hc]
    rfl
  · rw [Bool.not_eq_true] at hc
    rw [executeCode_run_eq code run hc, hc]
    cases hth : (run (cleanCodeForExecution code)).thrown <;> simp [hth]

/-- C3: on every exit path of `executeCode` — empty-after-cleaning
failure, successful run, or a throw from the executed code, and
whatever console mutation the executed code performs — the four
global console channels hold their original pre-call values again
when the call returns. -/
theorem executeCode_restores_console {α : Type} (code : Str)
    (run : Str → RunEffect α) (c0 : ConsoleState α) (cap : LogType → α) :
    (executeCodeFull code run c0 cap).2 = c0 := by
  cases c0
  simp only [executeCodeFull]
  split
  · rfl
  · split <;> rfl

/-- C4: when the header scan finds the (non-empty) list `ms` of
well-formed headers and every header's following content — from the
end of its header to the start of the next header, or the end of the
source for the last — trims to a non-empty string, the parser
returns exactly one section per header, in source order, each with
that trimmed content, the header's title and its declared number. -/
theorem parseSections_wellFormed_headers (code : Str) (ms : List HeaderMatch)
    (hscan : scanHeaders code = ms) (hne : ms ≠ [])
    (hbodies : (sectionBodies code ms).all (fun b => !b.isEmpty) = true) :
    parseCodeIntoSections code = expectedSections code ms ∧
    (parseCodeIntoSections code).length = ms.length := by
  rw [parseCodeIntoSections_of_scan code ms hscan hne,
      extractSections_eq_expected code ms hbodies]
  exact ⟨rfl, expectedSections_length code ms⟩

/-- C4 witness: a source with two well-formed, non-adjacent headers,
each followed by a non-empty body, parses to exactly those two
sections. -/
theorem parseSections_wellFormed_headers_witness :
    scanHeaders c4code = c4ms ∧ c4ms ≠ [] ∧
    (sectionBodies c4code c4ms).all (fun b => !b.isEmpty) = true ∧
    (parseCodeIntoSections c4code = expectedSections c4code c4ms ∧
      (parseCodeIntoSections c4code).length = c4ms.length) :=
  ⟨by decide, by decide, by decide,
   parseSections_wellFormed_headers c4code c4ms (by decide) (by decide) (by decide)⟩

/-- C5: on any input in which the header pattern does not occur, the
parser returns exactly one section titled `Code complet` with
`sectionNumber` 1 and content equal to the input verbatim — no
trimming on this fallback path. -/
theorem parseSections_no_header_fallback (code : Str)
    (h : scanHeaders code = []) :
    parseCodeIntoSections code =
      [{ title := str "Code complet", content := code, sectionNumber := 1 }] := by
  unfold parseCodeIntoSections
  rw [h]
  rfl

/-- C5 witness: the empty string has no header match and yields the
single fallback section with verbatim (empty) content. -/
theorem parseSections_no_header_fallback_witness :
    scanHeaders (str "") = [] ∧
    parseCodeIntoSections (str "") =
      [{ title := str "Code complet", content := str "", sectionNumber := 1 }] :=
  ⟨by decide, parseSections_no_header_fallback (str "") (by decide)⟩

/-- C6: whenever the type-erasure transform reduces the input to an
empty or whitespace-only string, `executeCode` never invokes the
fragment (the result is the same for every possible run behaviour)
and returns the fixed empty-after-cleaning error, recorded both as
`error` and as the single error-kind log entry. -/
theorem executeCode_empty_after_cleaning (code : Str) (run : Str → RunEffect Unit)
    (h : (jsTrim (cleanCodeForExecution code)).isEmpty = true) :
    executeCode code run =
      { logs := [{ type := LogType.error, message := emptyCleanMsg }],
        error := some emptyCleanMsg } := by
  rw [executeCode_empty_eq code run h, processHint_emptyCleanMsg]

/-- C6 witness: the whitespace-only input `"  "` cleans to the empty
string and yields the empty-after-cleaning error. -/
theorem executeCode_empty_after_cleaning_witness :
    (jsTrim (cleanCodeForExecution (str "  "))).isEmpty = true ∧
    executeCode (str "  ") (fun _ => ⟨[], none, id⟩) =
      { logs := [{ type := LogType.error, message := emptyCleanMsg }],
        error := some emptyCleanMsg } :=
  ⟨by decide, executeCode_empty_after_cleaning (str "  ") (fun _ => ⟨[], none, id⟩) (by decide)⟩

/-- C7 counterexample: the transform is not idempotent on
already-plain-JavaScript input.  The input
`const s = "/*/** m */* e */";` is plain JavaScript (a string-literal
assignment, no type-only syntax), yet the first pass, by excising the
inner `/** m */`, splices the surrounding text of the literal into a
new `/** e */` block that the second pass removes, so running the
transform twice differs from running it once. -/
theorem cleanCode_idempotence_counterexample :
    cleanCodeForExecution (cleanCodeForExecution (str "const s = \"/*/** m */* e */\";")) ≠
      cleanCodeForExecution (str "const s = \"/*/** m */* e */\";") := by decide

/-- C7 amended: the transform is idempotent on every input it
already leaves unchanged; in general a first pass may create new
removable patterns (as in the counterexample), so idempotence on all
plain-JavaScript input fails. -/
theorem cleanCode_idempotent_on_fixed_points (x : Str)
    (h : cleanCodeForExecution x = x) :
    cleanCodeForExecution (cleanCodeForExecution x) = cleanCodeForExecution x := by
  rw [h]
  exact h

/-- C7 witness: `console.log(0)` is left unchanged by the transform,
so the transform is idempotent at it. -/
theorem cleanCode_idempotent_on_fixed_points_witness :
    cleanCodeForExecution (str "console.log(0)") = str "console.log(0)" ∧
    cleanCodeForExecution (cleanCodeForExecution (str "console.log(0)")) =
      cleanCodeForExecution (str "console.log(0)") :=
  ⟨by decide, cleanCode_idempotent_on_fixed_points (str "console.log(0)") (by decide)⟩

/-- C8: for the input `console.log(1, 'a', true)` — whose run calls
the log channel once with the number `1`, the string `a` and the
boolean `true` — the result has exactly one log entry, of kind
`log`, with message `1 a true` (each argument rendered by default
string conversion, joined with single spaces), and no `error`. -/
theorem executeCode_console_log_three_args :
    executeCode (str "console.log(1, 'a', true)")
      (fun _ => ⟨[(LogType.log,
        [JSValue.vnum 1, JSValue.vstr (str "a"), JSValue.vbool true])], none, id⟩) =
      { logs := [{ type := LogType.log, message := str "1 a true" }],
        error := none } := by decide

/-- C9: when the cleaned code is non-empty and the fragment does not
throw, the `error` field is `none` — even when the fragment logs
through the error channel — and every console call, the error
channel included, becomes a log entry of the corresponding kind. -/
theorem executeCode_error_channel_not_error_field (code : Str)
    (run : Str → RunEffect Unit)
    (h1 : (jsTrim (cleanCodeForExecution code)).isEmpty = false)
    (h2 : (run (cleanCodeForExecution code)).thrown = none) :
    (executeCode code run).error = none ∧
    (executeCode code run).logs = (run (cleanCodeForExecution code)).events.map
      (fun ev => { type := ev.1, message := captureMessage ev.2 }) := by
  rw [executeCode_run_eq code run h1, h2]
  exact ⟨rfl, rfl⟩

/-- C9 witness: `console.error('x')` cleans to a non-empty text; a
run that calls the error channel once and does not throw yields an
error-kind log entry while `error` stays `none`. -/
theorem executeCode_error_channel_not_error_field_witness :
    (jsTrim (cleanCodeForExecution (str "console.error('x')"))).isEmpty = false ∧
    ((executeCode (str "console.error('x')")
        (fun _ => ⟨[(LogType.error, [JSValue.vstr (str "x")])], none, id⟩)).error = none ∧
      (executeCode (str "console.error('x')")
          (fun _ => ⟨[(LogType.error, [JSValue.vstr (str "x")])], none, id⟩)).logs =
        ((fun (_ : Str) => (⟨[(LogType.error, [JSValue.vstr (str "x")])], none, id⟩ : RunEffect Unit))
            (cleanCodeForExecution (str "console.error('x')"))).events.map
          (fun ev => { type := ev.1, message := captureMessage ev.2 })) :=
  ⟨by decide,
   executeCode_error_channel_not_error_field (str "console.error('x')")
     (fun _ => ⟨[(LogType.error, [JSValue.vstr (str "x")])], none, id⟩) (by decide) rfl⟩

/-- C10: the parser can return an empty sequence — when at least one
header is found and every header's following content trims to empty,
no section is produced, unlike the no-header case which always yields
one fallback section. -/
theorem parseSections_empty_output (code : Str) (ms : List HeaderMatch)
    (hscan : scanHeaders code = ms) (hne : ms ≠ [])
    (hempty : (sectionBodies code ms).all (fun b => b.isEmpty) = true) :
    parseCodeIntoSections code = [] := by
  rw [parseCodeIntoSections_of_scan code ms hscan hne]
  exact extractSections_nil_of_all_empty code ms hempty

/-- C10 witness: a source that is exactly one header block has one
match whose following content is empty, and parses to no sections. -/
theorem parseSections_empty_output_witness :
    scanHeaders c10code = c10ms ∧ c10ms ≠ [] ∧
    (sectionBodies c10code c10ms).all (fun b => b.isEmpty) = true ∧
    parseCodeIntoSections c10code = [] :=
  ⟨by decide, by decide, by decide,
   parseSections_empty_output c10code c10ms (by decide) (by decide) (by decide)⟩
